import Mathlib

/-!
Shallow embedding of the gallery API server (src/db.js, src/app.js):
the gallery-item store, its JSON categories codec, the seed data,
the date-grouping transformer and the four endpoint operations,
together with proofs of the specification claims.
-/

namespace Gallery

/-! ## JSON string-array codec

`db.js` stores `categories` as `JSON.stringify(item.categories)` (db.js:89,
app.js:130) and reads it back with `JSON.parse(item.categories || '[]')`
(app.js:77).  The functions below embed `JSON.stringify` on arrays of
strings, and `JSON.parse` restricted to the grammar of JSON arrays of
strings without interstitial whitespace (the only shape `JSON.stringify`
emits and the only shape this schema stores).
-/

/-- Hex digit used by the `\u00XX` escapes of `JSON.stringify`
(lower-case, as in JavaScript). -/
def hexDigit (n : Nat) : Char :=
  if n < 10 then Char.ofNat (48 + n) else Char.ofNat (87 + n)

/-- Numeric value of a hex digit accepted by `JSON.parse` inside a
`\uXXXX` escape. -/
def hexVal (c : Char) : Option Nat :=
  if 48 ≤ c.toNat ∧ c.toNat ≤ 57 then some (c.toNat - 48)
  else if 97 ≤ c.toNat ∧ c.toNat ≤ 102 then some (c.toNat - 87)
  else if 65 ≤ c.toNat ∧ c.toNat ≤ 70 then some (c.toNat - 55)
  else none

/-- The escape `JSON.stringify` applies to one character of a string:
quote and backslash get a backslash escape, the named control characters
get their short escapes, other control characters get `\u00XX`, and
everything else is emitted verbatim. -/
def escChar (c : Char) : List Char :=
  if c = '"' then ['\\', '"']
  else if c = '\\' then ['\\', '\\']
  else if c = Char.ofNat 8 then ['\\', 'b']
  else if c = Char.ofNat 9 then ['\\', 't']
  else if c = Char.ofNat 10 then ['\\', 'n']
  else if c = Char.ofNat 12 then ['\\', 'f']
  else if c = Char.ofNat 13 then ['\\', 'r']
  else if c.toNat < 32 then
    ['\\', 'u', '0', '0', hexDigit (c.toNat / 16), hexDigit (c.toNat % 16)]
  else [c]

/-- Escape every character of a string body, as `JSON.stringify` does. -/
def escList : List Char → List Char
  | [] => []
  | c :: cs => escChar c ++ escList cs

/-- `JSON.stringify` of one string: quoted escaped body. -/
def encodeStrChars (s : List Char) : List Char :=
  '"' :: escList s ++ ['"']

/-- The remaining elements of a stringified array: a comma before each. -/
def encodeTail : List (List Char) → List Char
  | [] => []
  | s :: t => ',' :: encodeStrChars s ++ encodeTail t

/-- `JSON.stringify` of an array of strings. -/
def encodeArrChars (l : List (List Char)) : List Char :=
  match l with
  | [] => ['[', ']']
  | s :: t => '[' :: (encodeStrChars s ++ encodeTail t ++ [']'])

/-- The single character denoted by a short escape accepted by
`JSON.parse` (everything except `\uXXXX`). -/
def escCharInv (e : Char) : Option Char :=
  if e = '"' then some '"'
  else if e = '\\' then some '\\'
  else if e = '/' then some '/'
  else if e = 'b' then some (Char.ofNat 8)
  else if e = 't' then some (Char.ofNat 9)
  else if e = 'n' then some (Char.ofNat 10)
  else if e = 'f' then some (Char.ofNat 12)
  else if e = 'r' then some (Char.ofNat 13)
  else none

/-- Parse the body of a JSON string up to and including the closing
quote, returning the decoded body and the unconsumed input; `none` is a
`JSON.parse` syntax error. -/
def parseStr : List Char → Option (List Char × List Char)
  | [] => none
  | c :: rest =>
    if c = '"' then some ([], rest)
    else if c = '\\' then
      match rest with
      | [] => none
      | e :: rest2 =>
        if e = 'u' then
          match rest2 with
          | h1 :: h2 :: h3 :: h4 :: rest3 =>
            match hexVal h1, hexVal h2, hexVal h3, hexVal h4 with
            | some a, some b, some c2, some d =>
              match parseStr rest3 with
              | some (s, r) =>
                some (Char.ofNat ((((a * 16 + b) * 16 + c2) * 16) + d) :: s, r)
              | none => none
            | _, _, _, _ => none
          | _ => none
        else
          match escCharInv e with
          | some d =>
            match parseStr rest2 with
            | some (s, r) => some (d :: s, r)
            | none => none
          | none => none
    else
      match parseStr rest with
      | some (s, r) => some (c :: s, r)
      | none => none

/-- Parse one JSON string literal (opening quote included). -/
def parseJString (l : List Char) : Option (List Char × List Char) :=
  match l with
  | [] => none
  | c :: rest => if c = '"' then parseStr rest else none

theorem parseStr_length : ∀ (l : List Char) (p : List Char × List Char),
    parseStr l = some p → p.2.length < l.length := by
  intro l
  induction l using parseStr.induct <;> rintro ⟨ps, pr⟩ hp <;>
    rw [parseStr.eq_def] at hp <;> simp_all <;> omega

theorem parseJString_length (l : List Char) (p : List Char × List Char)
    (h : parseJString l = some p) : p.2.length < l.length := by
  match l with
  | [] => simp [parseJString] at h
  | c :: rest =>
    simp only [parseJString] at h
    by_cases hc : c = '"'
    · rw [if_pos hc] at h
      have := parseStr_length rest p h
      simp
      omega
    · rw [if_neg hc] at h
      exact absurd h (by simp)

/-- Parse the elements of a non-empty JSON array of strings, starting at
the first element's opening quote and consuming through the closing
bracket; returns the elements and the unconsumed input. -/
def parseElems (l : List Char) : Option (List (List Char) × List Char) :=
  match h : parseJString l with
  | none => none
  | some (s, r) =>
    match r with
    | [] => none
    | c :: r2 =>
      if c = ',' then
        match parseElems r2 with
        | some (es, r3) => some (s :: es, r3)
        | none => none
      else if c = ']' then some ([s], r2)
      else none
termination_by l.length
decreasing_by
  have := parseJString_length l (s, c :: r2) h
  simp at this
  omega

/-- `JSON.parse` restricted to whitespace-free JSON arrays of strings:
the whole input must be consumed, as `JSON.parse` demands. -/
def parseStringArrayChars (l : List Char) : Option (List (List Char)) :=
  match l with
  | [] => none
  | c :: rest =>
    if c = '[' then
      match rest with
      | [] => none
      | d :: rest2 =>
        if d = ']' then (if rest2 = [] then some [] else none)
        else
          match parseElems rest with
          | some (es, r) => if r = [] then some es else none
          | none => none
    else none

/-- The stored categories scalar: `JSON.stringify(categories)`
(db.js:89, app.js:130). -/
def stringifyCats (cats : List String) : String :=
  String.mk (encodeArrChars (cats.map String.data))

/-- Reading categories back: `JSON.parse(item.categories || '[]')`
(app.js:77) — a NULL or empty stored value falls back to `'[]'`;
`none` is a thrown `JSON.parse` error. -/
def parseCats (stored : Option String) : Option (List String) :=
  let raw : String :=
    match stored with
    | none => "[]"
    | some t => if t = "" then "[]" else t
  (parseStringArrayChars raw.data).map (fun l => l.map String.mk)

theorem hexVal_hexDigit (m : Nat) (h : m < 16) : hexVal (hexDigit m) = some m := by
  interval_cases m <;> rfl

theorem parseStr_escChar (c : Char) (rest2 : List Char) :
    parseStr (escChar c ++ rest2) =
      match parseStr rest2 with
      | some (s, r) => some (c :: s, r)
      | none => none := by
  by_cases h1 : c = '"'
  · subst h1
    rw [show escChar '"' ++ rest2 = '\\' :: '"' :: rest2 from rfl, parseStr.eq_def]
    simp [escCharInv]
  · by_cases h2 : c = '\\'
    · subst h2
      rw [show escChar '\\' ++ rest2 = '\\' :: '\\' :: rest2 from rfl, parseStr.eq_def]
      simp [escCharInv]
    · by_cases h3 : c = Char.ofNat 8
      · subst h3
        rw [show escChar (Char.ofNat 8) ++ rest2 = '\\' :: 'b' :: rest2 from rfl,
          parseStr.eq_def]
        simp [escCharInv]
      · by_cases h4 : c = Char.ofNat 9
        · subst h4
          rw [show escChar (Char.ofNat 9) ++ rest2 = '\\' :: 't' :: rest2 from rfl,
            parseStr.eq_def]
          simp [escCharInv]
        · by_cases h5 : c = Char.ofNat 10
          · subst h5
            rw [show escChar (Char.ofNat 10) ++ rest2 = '\\' :: 'n' :: rest2 from rfl,
              parseStr.eq_def]
            simp [escCharInv]
          · by_cases h6 : c = Char.ofNat 12
            · subst h6
              rw [show escChar (Char.ofNat 12) ++ rest2 = '\\' :: 'f' :: rest2 from rfl,
                parseStr.eq_def]
              simp [escCharInv]
            · by_cases h7 : c = Char.ofNat 13
              · subst h7
                rw [show escChar (Char.ofNat 13) ++ rest2 = '\\' :: 'r' :: rest2 from rfl,
                  parseStr.eq_def]
                simp [escCharInv]
              · by_cases h8 : c.toNat < 32
                · rw [show escChar c ++ rest2 =
                    '\\' :: 'u' :: '0' :: '0' ::
                      hexDigit (c.toNat / 16) :: hexDigit (c.toNat % 16) :: rest2 by
                      simp [escChar, h1, h2, h3, h4, h5, h6, h7, h8]]
                  rw [parseStr.eq_def]
                  have hd1 : hexVal (hexDigit (c.toNat / 16)) = some (c.toNat / 16) :=
                    hexVal_hexDigit _ (by omega)
                  have hd2 : hexVal (hexDigit (c.toNat % 16)) = some (c.toNat % 16) :=
                    hexVal_hexDigit _ (by omega)
                  have hv0 : hexVal '0' = some 0 := rfl
                  simp only [hv0, hd1, hd2]
                  rw [show (((0 * 16 + 0) * 16 + c.toNat / 16) * 16) + c.toNat % 16
                    = c.toNat by omega, Char.ofNat_toNat]
                  simp
                · rw [show escChar c ++ rest2 = c :: rest2 by
                    simp [escChar, h1, h2, h3, h4, h5, h6, h7, h8]]
                  rw [parseStr.eq_def]
                  simp [h1, h2]

theorem parseStr_escList (s : List Char) : ∀ (rest : List Char),
    parseStr (escList s ++ '"' :: rest) = some (s, rest) := by
  induction s with
  | nil =>
    intro rest
    rw [show escList [] ++ '"' :: rest = '"' :: rest from rfl, parseStr.eq_def]
    simp
  | cons c cs ih =>
    intro rest
    rw [show escList (c :: cs) ++ '"' :: rest = escChar c ++ (escList cs ++ '"' :: rest) by
      simp [escList]]
    rw [parseStr_escChar, ih rest]

theorem parseJString_encodeStr (s : List Char) (rest : List Char) :
    parseJString (encodeStrChars s ++ rest) = some (s, rest) := by
  rw [show encodeStrChars s ++ rest = '"' :: (escList s ++ '"' :: rest) by
    simp [encodeStrChars]]
  simp [parseJString, parseStr_escList]

theorem parseElems_eq (l : List Char) :
    parseElems l =
      match parseJString l with
      | none => none
      | some (s, r) =>
        match r with
        | [] => none
        | c :: r2 =>
          if c = ',' then
            match parseElems r2 with
            | some (es, r3) => some (s :: es, r3)
            | none => none
          else if c = ']' then some ([s], r2)
          else none := by
  rw [parseElems.eq_def]
  split
  · rename_i h
    conv_rhs => rw [h]
  · rename_i s r h
    conv_rhs => rw [h]
    cases r <;> rfl

theorem parseElems_encode (t : List (List Char)) : ∀ (s : List Char) (rest : List Char),
    parseElems (encodeStrChars s ++ (encodeTail t ++ ']' :: rest)) = some (s :: t, rest) := by
  induction t with
  | nil =>
    intro s rest
    rw [parseElems_eq]
    rw [show encodeStrChars s ++ (encodeTail [] ++ ']' :: rest)
      = encodeStrChars s ++ (']' :: rest) by simp [encodeTail]]
    rw [parseJString_encodeStr]
    simp
  | cons s2 t2 ih =>
    intro s rest
    rw [parseElems_eq]
    rw [show encodeStrChars s ++ (encodeTail (s2 :: t2) ++ ']' :: rest)
      = encodeStrChars s ++ (',' :: (encodeStrChars s2 ++ (encodeTail t2 ++ ']' :: rest))) by
        simp [encodeTail]]
    rw [parseJString_encodeStr]
    simp [ih s2 rest]

theorem parseArr_encode (l : List (List Char)) :
    parseStringArrayChars (encodeArrChars l) = some l := by
  match l with
  | [] => rfl
  | s :: t =>
    have hsh : encodeStrChars s ++ (encodeTail t ++ [']'])
        = '"' :: (escList s ++ '"' :: (encodeTail t ++ [']'])) := by
      simp [encodeStrChars]
    rw [show encodeArrChars (s :: t)
      = '[' :: (encodeStrChars s ++ (encodeTail t ++ [']'])) by
        simp [encodeArrChars]]
    rw [parseStringArrayChars.eq_def]
    rw [hsh]
    have he : parseElems ('"' :: (escList s ++ '"' :: (encodeTail t ++ [']'])))
        = some (s :: t, []) := by
      rw [← hsh]
      rw [show encodeStrChars s ++ (encodeTail t ++ [']'])
        = encodeStrChars s ++ (encodeTail t ++ ']' :: []) by simp]
      exact parseElems_encode t s []
    simp [he]

/-- Encode-then-decode is the identity on category lists; a NULL or
empty stored scalar decodes to the empty list. -/
theorem parseCats_roundtrip (cats : List String) :
    parseCats (some (stringifyCats cats)) = some cats := by
  have hne : stringifyCats cats ≠ "" := by
    simp only [stringifyCats]
    intro hcon
    have : (String.mk (encodeArrChars (cats.map String.data))).data = ("" : String).data := by
      rw [hcon]
    simp only [show ("" : String).data = [] from rfl] at this
    rcases cats with _ | ⟨c0, cs⟩ <;> simp [encodeArrChars] at this
  have h1 : parseCats (some (stringifyCats cats)) =
      (parseStringArrayChars (stringifyCats cats).data).map (fun l => l.map String.mk) := by
    simp only [parseCats]
    rw [if_neg hne]
  rw [h1]
  rw [show (stringifyCats cats).data = encodeArrChars (cats.map String.data) from rfl]
  rw [parseArr_encode]
  simp only [Option.map_some', List.map_map]
  rw [show (String.mk ∘ String.data) = id from funext fun s => rfl]
  simp

/-! ## The persistent store

One SQLite table `gallery_items(id PK, type, src, alt, poster,
isFavorite INTEGER, dateGroup, categories TEXT)` (db.js:30-41), embedded
as a list of rows in rowid (insertion) order, which is the order a bare
`SELECT * FROM gallery_items` returns.
-/

/-- One stored row of `gallery_items`.  `alt`, `poster` and `categories`
are nullable columns; `isFavorite` is an SQLite INTEGER. -/
structure Row where
  id : String
  type : String
  src : String
  alt : Option String
  poster : Option String
  isFavorite : Int
  dateGroup : String
  categories : Option String
deriving DecidableEq

/-- One entry of the `initialMockGalleryItems` literal in db.js:52-73,
before serialization: `categories` is still a list and `poster` is
absent on image items (`item.poster || null` inserts NULL). -/
structure SeedItem where
  id : String
  type : String
  src : String
  alt : String
  poster : Option String
  isFavorite : Int
  dateGroup : String
  categories : List String
deriving DecidableEq

/-- The row the seeding loop (db.js:80-91) inserts for one seed item:
all scalar fields verbatim, `poster || null`, and
`JSON.stringify(item.categories)` for the categories column. -/
def seedRowOf (it : SeedItem) : Row :=
  { id := it.id, type := it.type, src := it.src, alt := some it.alt
    poster := it.poster, isFavorite := it.isFavorite
    dateGroup := it.dateGroup
    categories := some (stringifyCats it.categories) }

/-- The `initialMockGalleryItems` array of db.js:52-73, verbatim. -/
def initialMockGalleryItems : List SeedItem := [
  { id := "img-001", type := "image", src := "/source/Pics/identity_veeshna_01.jpg",
    alt := "identity_veeshna_01.jpg", poster := none, isFavorite := 0,
    dateGroup := "May 1, 2025", categories := ["library", "nature", "landscape"] },
  { id := "vid-001", type := "video", src := "https://www.w3schools.com/html/mov_bbb.mp4",
    alt := "Big Buck Bunny short clip",
    poster := some "https://source.unsplash.com/random/800x600?forest,animals",
    isFavorite := 0, dateGroup := "May 1, 2025",
    categories := ["library", "videos", "animals"] },
  { id := "img-002", type := "image", src := "/source/Pics/identity_veeshna_03.jpg",
    alt := "identity_veeshna_03.jpg", poster := none, isFavorite := 1,
    dateGroup := "May 1, 2025", categories := ["library", "people", "portraits"] },
  { id := "img-003", type := "image", src := "/source/Pics/identity_veeshna_02.jpg",
    alt := "identity_veeshna_02.jpg", poster := none, isFavorite := 0,
    dateGroup := "May 1, 2025", categories := ["library", "city"] },
  { id := "img-004", type := "image", src := "/source/Pics/identity_renuka_02.jpg",
    alt := "identity_renuka_02.jpg", poster := none, isFavorite := 0,
    dateGroup := "May 1, 2025", categories := ["library", "food"] },
  { id := "img-005", type := "image", src := "/source/Pics/identity_renuka_01.jpg",
    alt := "identity_renuka_01.jpg", poster := none, isFavorite := 0,
    dateGroup := "April 15, 2025",
    categories := ["library", "nature", "landscape", "trips"] },
  { id := "img-006", type := "image",
    src := "https://source.unsplash.com/random/600x800?architecture,building",
    alt := "Modern glass skyscraper exterior", poster := none, isFavorite := 0,
    dateGroup := "April 15, 2025", categories := ["library", "architecture", "city"] },
  { id := "vid-002", type := "video",
    src := "http://commondatastorage.googleapis.com/gtv-videos-bucket/sample/ElephantsDream.mp4",
    alt := "Animated sequence from Elephants Dream",
    poster := some "https://source.unsplash.com/random/800x600?dream,fantasy",
    isFavorite := 1, dateGroup := "April 15, 2025",
    categories := ["library", "videos", "animation"] },
  { id := "img-007", type := "image",
    src := "https://source.unsplash.com/random/800x800?animals,cat",
    alt := "Cute fluffy cat relaxing", poster := none, isFavorite := 0,
    dateGroup := "April 15, 2025", categories := ["library", "animals", "favorites"] },
  { id := "img-008", type := "image",
    src := "https://source.unsplash.com/random/1200x800?flower,garden",
    alt := "Vibrant blooming flower in a garden", poster := none, isFavorite := 0,
    dateGroup := "April 15, 2025", categories := ["library", "nature", "garden"] },
  { id := "img-009", type := "image",
    src := "https://source.unsplash.com/random/800x600?beach,ocean",
    alt := "Tropical beach with clear blue ocean", poster := none, isFavorite := 0,
    dateGroup := "March 5, 2025", categories := ["library", "nature", "trips"] },
  { id := "img-010", type := "image",
    src := "https://source.unsplash.com/random/600x800?coffee,drink",
    alt := "Steaming cup of coffee on a table", poster := none, isFavorite := 0,
    dateGroup := "March 5, 2025", categories := ["library", "everyday"] },
  { id := "vid-003", type := "video", src := "https://www.w3schools.com/html/movie.mp4",
    alt := "Generic movie trailer",
    poster := some "https://source.unsplash.com/random/800x600?movie,cinema",
    isFavorite := 0, dateGroup := "March 5, 2025", categories := ["library", "videos"] },
  { id := "img-011", type := "image",
    src := "https://source.unsplash.com/random/800x800?wildlife,bird",
    alt := "Colorful bird perched on a branch", poster := none, isFavorite := 0,
    dateGroup := "March 5, 2025", categories := ["library", "animals"] },
  { id := "img-012", type := "image", src := "/source/Pics/identity_veeshna_04.jpg",
    alt := "Cozy cabin in a snowy landscape", poster := none, isFavorite := 0,
    dateGroup := "January 20, 2025", categories := ["library", "nature", "trips"] },
  { id := "img-013", type := "image",
    src := "https://source.unsplash.com/random/600x800?fireworks,celebration",
    alt := "Fireworks exploding in night sky", poster := none, isFavorite := 1,
    dateGroup := "January 20, 2025", categories := ["library", "celebration", "events"] }]

/-- `initializeDatabase` (db.js:18-100) on the table state: the schema
is created if absent, and the seed rows are inserted only when
`SELECT COUNT(*)` is zero (db.js:51); otherwise the table is untouched. -/
def initializeDatabase (s : List Row) : List Row :=
  if s.isEmpty then initialMockGalleryItems.map seedRowOf else s

/-- A deserialized gallery item as the GET endpoint exposes it
(app.js:74-78): `isFavorite` coerced via `Boolean(...)`, `categories`
parsed from the stored scalar. -/
structure PItem where
  id : String
  type : String
  src : String
  alt : Option String
  poster : Option String
  isFavorite : Bool
  dateGroup : String
  categories : List String
deriving DecidableEq

/-- Deserialization of one row (app.js:74-78): spread the row, coerce
the favorite flag, parse categories; `none` is a thrown `JSON.parse`
error (caught as a 500 by the route). -/
def deserializeRow (r : Row) : Option PItem :=
  (parseCats r.categories).map fun cats =>
    { id := r.id, type := r.type, src := r.src, alt := r.alt, poster := r.poster
      isFavorite := r.isFavorite != 0, dateGroup := r.dateGroup, categories := cats }

/-- `db.all('SELECT * FROM gallery_items')` followed by the
deserializing `map` of app.js:74-78; any row whose categories fail to
parse makes the whole request fail. -/
def listAll : List Row → Option (List PItem)
  | [] => some []
  | r :: rs =>
    match deserializeRow r, listAll rs with
    | some p, some ps => some (p :: ps)
    | _, _ => none

/-- `db.get('SELECT ... FROM gallery_items WHERE id = ?', id)`:
the first row with the given id, or NULL. -/
def getById (s : List Row) (idv : String) : Option Row :=
  s.find? (fun r => r.id = idv)

/-- The favorite endpoint (app.js:145-167): look the row up, 404 when
absent, flip `0 ↦ 1` and anything else `↦ 0`, and persist with
`UPDATE gallery_items SET isFavorite = ? WHERE id = ?`.  Returns the
updated store and the value written. -/
def setFavorite (s : List Row) (idv : String) : Option (List Row × Int) :=
  match getById s idv with
  | none => none
  | some item =>
    let newFavoriteStatus : Int := if item.isFavorite = 0 then 1 else 0
    some (s.map (fun r => if r.id = idv then
      { r with isFavorite := newFavoriteStatus } else r), newFavoriteStatus)

/-- The delete endpoint (app.js:170-205): look the row up, 404 when
absent, `DELETE FROM gallery_items WHERE id = ?`, 404 again if that
removed no row, then answer with the requested id.  The fire-and-forget
`fs.unlink` of an uploaded file is outside the store model. -/
def deleteItem (s : List Row) (idv : String) : Option (List Row × String) :=
  match getById s idv with
  | none => none
  | some _ =>
    let changes := s.countP (fun r => r.id = idv)
    if changes = 0 then none
    else some (s.filter (fun r => ¬ (r.id = idv)), idv)

/-- The multer file object the upload endpoint reads
(`req.file`, app.js:106-115). -/
structure UploadFile where
  mimetype : String
  originalname : String
  filename : String
deriving DecidableEq

/-- `String.prototype.startsWith`: the pattern's characters are a prefix
of the subject's. -/
def startsWithStr (s p : String) : Bool :=
  p.data.isPrefixOf s.data

/-- The upload endpoint (app.js:104-142): 400 (and no store access) when
no file is present; otherwise derive `type` from the MIME prefix, build
`src` under /uploads, parse the categories field with an empty-list
fallback, default `alt` to the original filename, insert the row and
answer with the created item.  The generated
`uploaded-${Date.now()}-${random}` id is passed in as `newId`. -/
def uploadItem (s : List Row) (file : Option UploadFile) (alt : Option String)
    (categories : Option String) (dateGroup : String) (newId : String) :
    Option (List Row × PItem) :=
  match file with
  | none => none
  | some f =>
    let type := if startsWithStr f.mimetype "image/" then "image" else "video"
    let src := "/uploads/" ++ f.filename
    let parsedCategories : List String :=
      match categories with
      | none => []
      | some cs =>
        if cs = "" then []
        else match parseCats (some cs) with
          | some l => l
          | none => []
    let altVal : String :=
      match alt with
      | none => f.originalname
      | some a => if a = "" then f.originalname else a
    let row : Row :=
      { id := newId, type := type, src := src, alt := some altVal, poster := none
        isFavorite := 0, dateGroup := dateGroup
        categories := some (stringifyCats parsedCategories) }
    let newItem : PItem :=
      { id := newId, type := type, src := src, alt := some altVal, poster := none
        isFavorite := false, dateGroup := dateGroup, categories := parsedCategories }
    some (s ++ [row], newItem)

/-! ## Date parsing and the grouping transformer

The GET route (app.js:81-94) buckets the deserialized items by
`dateGroup` into an insertion-ordered object and sorts the groups with
`(a, b) => new Date(b.date) - new Date(a.date)`.

`parseDateLabel` embeds `new Date(label)` on labels of the seeded
"MonthName D, YYYY" shape, mapping a parsed date to a number whose order
agrees with the time value; every other label is an Invalid Date (NaN).
The comparator subtraction on a NaN yields NaN, which the sort treats as
0, i.e. as "equal"; `Array.prototype.sort` is stable, embedded here as a
stable insertion sort (on comparators that are total preorders every
stable sort computes the same list).  Object key insertion order is
modelled for the non-integer-like label strings this shape produces.
-/

/-- Month names `new Date` accepts in the seeded label shape. -/
def monthIndex (m : String) : Option Nat :=
  if m = "January" then some 1
  else if m = "February" then some 2
  else if m = "March" then some 3
  else if m = "April" then some 4
  else if m = "May" then some 5
  else if m = "June" then some 6
  else if m = "July" then some 7
  else if m = "August" then some 8
  else if m = "September" then some 9
  else if m = "October" then some 10
  else if m = "November" then some 11
  else if m = "December" then some 12
  else none

/-- A non-empty all-digit character run as a number. -/
def digitsToNat (cs : List Char) : Option Nat :=
  if cs ≠ [] ∧ cs.all (fun c => c.isDigit)
  then some (cs.foldl (fun a c => a * 10 + (c.toNat - 48)) 0)
  else none

/-- `new Date(label)` for labels shaped "MonthName D, YYYY" (the shape of
every seeded `dateGroup`), as the order-preserving value
`y * 10000 + m * 100 + d`; anything else — including out-of-range day
numbers — is an Invalid Date, i.e. `none`. -/
def parseDateLabel (s : String) : Option Nat :=
  let cs := s.data
  let mon := String.mk (cs.takeWhile (fun c => ¬ c = ' '))
  match monthIndex mon, cs.dropWhile (fun c => ¬ c = ' ') with
  | some m, _ :: rest =>
    let dayCs := rest.takeWhile (fun c => ¬ c = ',')
    match digitsToNat dayCs, rest.dropWhile (fun c => ¬ c = ',') with
    | some d, _ :: sp :: yearCs =>
      if sp = ' ' then
        match digitsToNat yearCs with
        | some y => if 1 ≤ d ∧ d ≤ 31 then some (y * 10000 + m * 100 + d) else none
        | none => none
      else none
    | _, _ => none
  | _, _ => none

/-- One group of the GET response: `{ id: dateGroup, date: dateGroup,
items }` (app.js:84-88). -/
structure DateGroup where
  id : String
  date : String
  items : List PItem
deriving DecidableEq

/-- The sort comparator `(a, b) => new Date(b.date) - new Date(a.date)`
(app.js:94) read as "a may come before b": a nonpositive difference,
i.e. later-or-equal date first; a NaN on either side is treated as 0 by
the sort, so such pairs compare as equal (true both ways). -/
def dateLE (a b : DateGroup) : Bool :=
  match parseDateLabel a.date, parseDateLabel b.date with
  | some va, some vb => decide (vb ≤ va)
  | _, _ => true

/-- The `forEach` body of app.js:82-91: append the item to its label's
group, creating the group at the end of the key order when absent. -/
def addToGroups (groups : List DateGroup) (item : PItem) : List DateGroup :=
  if groups.any (fun g => g.date = item.dateGroup) then
    groups.map (fun g => if g.date = item.dateGroup then
      { g with items := g.items ++ [item] } else g)
  else
    groups ++ [{ id := item.dateGroup, date := item.dateGroup, items := [item] }]

/-- `groupedData` after the `forEach`, in object key insertion order
(what `Object.values` returns). -/
def buildGroups (items : List PItem) : List DateGroup :=
  items.foldl addToGroups []

/-- Stable insertion: a newly scanned element goes after every
element it does not strictly precede. -/
def insertSorted {α : Type} (le : α → α → Bool) (a : α) : List α → List α
  | [] => [a]
  | b :: bs => if le b a then b :: insertSorted le a bs else a :: b :: bs

/-- Stable sort (the ECMAScript `Array.prototype.sort` guarantee),
embedded as left-to-right insertion sort. -/
def stableSort {α : Type} (le : α → α → Bool) (l : List α) : List α :=
  l.foldl (fun acc x => insertSorted le x acc) []

/-- The grouping transformer of the GET route (app.js:81-94): bucket by
`dateGroup`, then sort the groups by date, most recent first. -/
def groupGallery (items : List PItem) : List DateGroup :=
  stableSort dateLE (buildGroups items)

/-- The distinct values of a list, first occurrences in order — the key
order of a JavaScript object populated left to right. -/
def dedupFirst (l : List String) : List String :=
  l.foldl (fun acc x => if x ∈ acc then acc else acc ++ [x]) []

theorem insertSorted_perm {α : Type} (le : α → α → Bool) (a : α) :
    ∀ l : List α, (insertSorted le a l).Perm (a :: l) := by
  intro l
  induction l with
  | nil => simp [insertSorted]
  | cons b bs ih =>
    by_cases hba : le b a
    · simp only [insertSorted, if_pos hba]
      exact (ih.cons b).trans (List.Perm.swap a b bs)
    · simp [insertSorted, hba]

theorem sortLoop_perm {α : Type} (le : α → α → Bool) :
    ∀ (l acc : List α),
      (l.foldl (fun acc x => insertSorted le x acc) acc).Perm (acc ++ l) := by
  intro l
  induction l with
  | nil => intro acc; simp
  | cons x xs ih =>
    intro acc
    have h1 := ih (insertSorted le x acc)
    have h2 : (insertSorted le x acc ++ xs).Perm (acc ++ x :: xs) :=
      ((insertSorted_perm le x acc).append_right xs).trans List.perm_middle.symm
    simpa using h1.trans h2

theorem stableSort_perm {α : Type} (le : α → α → Bool) (l : List α) :
    (stableSort le l).Perm l := by
  simpa using sortLoop_perm le l []

theorem insertSorted_pairwise {α : Type} (le : α → α → Bool) (a : α)
    (hstep : ∀ b c, ¬ le b a = true → le b c = true → le a c = true) :
    ∀ l : List α, l.Pairwise (fun x y => le x y = true) →
    (∀ b ∈ l, le b a = true ∨ le a b = true) →
    (insertSorted le a l).Pairwise (fun x y => le x y = true) := by
  intro l
  induction l with
  | nil => intro _ _; simp [insertSorted]
  | cons b bs ih =>
    intro hp htot
    rw [List.pairwise_cons] at hp
    by_cases hba : le b a = true
    · simp only [insertSorted, if_pos hba]
      rw [List.pairwise_cons]
      constructor
      · intro y hy
        rcases List.mem_cons.1 (((insertSorted_perm le a bs).mem_iff).1 hy) with hya | hyb
        · exact hya ▸ hba
        · exact hp.1 y hyb
      · exact ih hp.2 (fun c hc => htot c (List.mem_cons_of_mem b hc))
    · simp only [insertSorted, if_neg hba]
      rw [List.pairwise_cons]
      constructor
      · intro y hy
        rcases List.mem_cons.1 hy with hyb | hybs
        · subst hyb
          rcases htot y (List.mem_cons_self y bs) with h | h
          · exact absurd h hba
          · exact h
        · exact hstep b y hba (hp.1 y hybs)
      · exact List.pairwise_cons.2 hp

theorem sortLoop_pairwise {α : Type} (le : α → α → Bool)
    (hstep : ∀ a b c, ¬ le b a = true → le b c = true → le a c = true)
    (htot : ∀ a b, le a b = true ∨ le b a = true) :
    ∀ (l acc : List α), acc.Pairwise (fun x y => le x y = true) →
      (l.foldl (fun acc x => insertSorted le x acc) acc).Pairwise
        (fun x y => le x y = true) := by
  intro l
  induction l with
  | nil => intro acc h; simpa using h
  | cons x xs ih =>
    intro acc hacc
    exact ih (insertSorted le x acc)
      (insertSorted_pairwise le x (fun b c => hstep x b c) acc hacc
        (fun b _ => htot b x))

theorem stableSort_pairwise {α : Type} (le : α → α → Bool)
    (hstep : ∀ a b c, ¬ le b a = true → le b c = true → le a c = true)
    (htot : ∀ a b, le a b = true ∨ le b a = true) (l : List α) :
    (stableSort le l).Pairwise (fun x y => le x y = true) :=
  sortLoop_pairwise le hstep htot l [] (by simp)

theorem dateLE_total (a b : DateGroup) : dateLE a b = true ∨ dateLE b a = true := by
  unfold dateLE
  rcases parseDateLabel a.date with _ | va <;> rcases parseDateLabel b.date with _ | vb <;>
    simp <;> omega

theorem dateLE_step (a b c : DateGroup) (h1 : ¬ dateLE b a = true)
    (h2 : dateLE b c = true) : dateLE a c = true := by
  rcases hpa : parseDateLabel a.date with _ | va <;>
    rcases hpb : parseDateLabel b.date with _ | vb <;>
      rcases hpc : parseDateLabel c.date with _ | vc <;>
        simp only [dateLE, hpa, hpb, hpc] at h1 h2 ⊢ <;> simp_all <;> omega

theorem mem_dedupAux (y : String) :
    ∀ (l acc : List String),
      (y ∈ l.foldl (fun acc x => if x ∈ acc then acc else acc ++ [x]) acc)
        ↔ y ∈ acc ∨ y ∈ l := by
  intro l
  induction l with
  | nil => intro acc; simp
  | cons x xs ih =>
    intro acc
    show (y ∈ xs.foldl _ (if x ∈ acc then acc else acc ++ [x])) ↔ _
    rw [ih]
    by_cases hx : x ∈ acc
    · rw [if_pos hx]
      constructor
      · rintro (h | h)
        · exact Or.inl h
        · exact Or.inr (List.mem_cons_of_mem x h)
      · rintro (h | h)
        · exact Or.inl h
        · rcases List.mem_cons.1 h with h | h
          · exact Or.inl (h ▸ hx)
          · exact Or.inr h
    · rw [if_neg hx]
      simp only [List.mem_append, List.mem_singleton, List.mem_cons]
      tauto

theorem mem_dedupFirst (y : String) (l : List String) :
    y ∈ dedupFirst l ↔ y ∈ l := by
  simpa using mem_dedupAux y l []

theorem buildGroups_spec (items : List PItem) :
    (buildGroups items).map (fun g => g.date)
      = dedupFirst (items.map (fun i => i.dateGroup))
    ∧ ∀ g ∈ buildGroups items, g.id = g.date ∧
        g.items = items.filter (fun i => i.dateGroup = g.date) := by
  induction items using List.reverseRecOn with
  | nil => simp [buildGroups, dedupFirst]
  | append_singleton pref x ih =>
    obtain ⟨ih1, ih2⟩ := ih
    have hbuild : buildGroups (pref ++ [x]) = addToGroups (buildGroups pref) x := by
      simp [buildGroups, List.foldl_append]
    have hdedup : dedupFirst ((pref ++ [x]).map (fun i => i.dateGroup))
        = (if x.dateGroup ∈ dedupFirst (pref.map (fun i => i.dateGroup))
           then dedupFirst (pref.map (fun i => i.dateGroup))
           else dedupFirst (pref.map (fun i => i.dateGroup)) ++ [x.dateGroup]) := by
      simp [dedupFirst, List.map_append, List.foldl_append]
    by_cases hmem : (buildGroups pref).any (fun g => g.date = x.dateGroup)
    · have hxd : x.dateGroup ∈ dedupFirst (pref.map (fun i => i.dateGroup)) := by
        rw [← ih1]
        rcases List.any_eq_true.1 hmem with ⟨g, hg, hgd⟩
        simp only [decide_eq_true_eq] at hgd
        exact hgd ▸ List.mem_map_of_mem (fun g => g.date) hg
      constructor
      · rw [hbuild, hdedup, if_pos hxd]
        rw [show addToGroups (buildGroups pref) x
          = (buildGroups pref).map (fun g => if g.date = x.dateGroup then
              { g with items := g.items ++ [x] } else g) by
            simp [addToGroups, hmem]]
        rw [List.map_map, ← ih1]
        apply List.map_congr_left
        intro g _
        by_cases hgd : g.date = x.dateGroup <;> simp [hgd]
      · intro g' hg'
        rw [hbuild, show addToGroups (buildGroups pref) x
          = (buildGroups pref).map (fun g => if g.date = x.dateGroup then
              { g with items := g.items ++ [x] } else g) by
            simp [addToGroups, hmem]] at hg'
        rcases List.mem_map.1 hg' with ⟨g, hg, hup⟩
        obtain ⟨hid, hitems⟩ := ih2 g hg
        by_cases hgd : g.date = x.dateGroup
        · rw [if_pos hgd] at hup
          subst hup
          refine ⟨hid, ?_⟩
          show g.items ++ [x] = (pref ++ [x]).filter (fun i => i.dateGroup = g.date)
          rw [List.filter_append, ← hitems]
          simp [hgd]
        · rw [if_neg hgd] at hup
          subst hup
          refine ⟨hid, ?_⟩
          rw [List.filter_append, ← hitems]
          have : ¬ (x.dateGroup = g.date) := fun h => hgd h.symm
          simp [this]
    · have hxd : x.dateGroup ∉ dedupFirst (pref.map (fun i => i.dateGroup)) := by
        rw [← ih1]
        intro hcon
        rcases List.mem_map.1 hcon with ⟨g, hg, hgd⟩
        exact hmem (List.any_eq_true.2 ⟨g, hg, by simp [hgd]⟩)
      have hadd : addToGroups (buildGroups pref) x
          = buildGroups pref
            ++ [{ id := x.dateGroup, date := x.dateGroup, items := [x] }] := by
        simp [addToGroups, hmem]
      constructor
      · rw [hbuild, hadd, hdedup, if_neg hxd]
        simp [ih1]
      · intro g' hg'
        rw [hbuild, hadd] at hg'
        rcases List.mem_append.1 hg' with hg | hnew
        · obtain ⟨hid, hitems⟩ := ih2 g' hg
          refine ⟨hid, ?_⟩
          rw [List.filter_append, ← hitems]
          have : ¬ (x.dateGroup = g'.date) := by
            intro h
            exact hxd (h ▸ ih1 ▸ List.mem_map_of_mem (fun g => g.date) hg)
          simp [this]
        · rcases List.mem_singleton.1 hnew with rfl
          refine ⟨rfl, ?_⟩
          show [x] = (pref ++ [x]).filter (fun i => i.dateGroup = x.dateGroup)
          rw [List.filter_append]
          have hpref : pref.filter (fun i => i.dateGroup = x.dateGroup) = [] := by
            rw [List.filter_eq_nil_iff]
            intro i hi
            simp only [decide_eq_true_eq]
            intro hcon
            exact hxd ((mem_dedupFirst _ _).2
              (hcon ▸ List.mem_map_of_mem (fun j => j.dateGroup) hi))
          rw [hpref]
          simp

/-- What one seed item deserializes back to. -/
def seedDecoded (it : SeedItem) : PItem :=
  { id := it.id, type := it.type, src := it.src, alt := some it.alt
    poster := it.poster, isFavorite := it.isFavorite != 0
    dateGroup := it.dateGroup, categories := it.categories }

theorem listAll_seedRows : ∀ its : List SeedItem,
    listAll (its.map seedRowOf) = some (its.map seedDecoded) := by
  intro its
  induction its with
  | nil => rfl
  | cons it rest ih =>
    show (match deserializeRow (seedRowOf it), listAll (rest.map seedRowOf) with
      | some p, some ps => some (p :: ps)
      | _, _ => none) = _
    rw [ih]
    rw [show deserializeRow (seedRowOf it) = some (seedDecoded it) by
      simp [deserializeRow, seedRowOf, parseCats_roundtrip, seedDecoded]]
    rfl

/-! ## The claims -/

/-- C1 counterexample: after initializing the empty store, `listAll`
returns 16 records, not 17 — the seed array of db.js:52-73 has sixteen
entries. -/
theorem C1_counterexample :
    ¬ ∃ l, listAll (initializeDatabase []) = some l ∧ l.length = 17 := by
  rintro ⟨l, hl, hlen⟩
  rw [show initializeDatabase [] = initialMockGalleryItems.map seedRowOf from rfl,
    listAll_seedRows] at hl
  have hleq : initialMockGalleryItems.map seedDecoded = l := by injection hl
  subst hleq
  rw [List.length_map] at hlen
  exact absurd hlen (by decide)

/-- C1 (amended): if initialize() is run on an empty store, listAll()
afterwards returns exactly 16 records, among them a record with id
"img-001", type "image", and categories ["library","nature","landscape"]. -/
theorem C1_initialize_listAll :
    ∃ l, listAll (initializeDatabase []) = some l ∧ l.length = 16 ∧
      ∃ p ∈ l, p.id = "img-001" ∧ p.type = "image" ∧
        p.categories = ["library", "nature", "landscape"] := by
  refine ⟨initialMockGalleryItems.map seedDecoded, ?_, ?_, ?_⟩
  · rw [show initializeDatabase [] = initialMockGalleryItems.map seedRowOf from rfl,
      listAll_seedRows]
  · decide
  · exact ⟨seedDecoded ⟨"img-001", "image", "/source/Pics/identity_veeshna_01.jpg",
      "identity_veeshna_01.jpg", none, 0, "May 1, 2025",
      ["library", "nature", "landscape"]⟩, by decide, rfl, rfl, rfl⟩

/-- C2: for every ordered sequence of category strings, encoding to the
stored scalar and decoding yields the identical sequence; an absent
(NULL/empty) stored value decodes to the empty sequence, never an error. -/
theorem C2_categories_roundtrip :
    (∀ cats : List String, parseCats (some (stringifyCats cats)) = some cats)
    ∧ parseCats none = some []
    ∧ parseCats (some "") = some [] :=
  ⟨parseCats_roundtrip, by decide, by decide⟩

theorem dateLE_imp {a b : DateGroup} (hab : dateLE a b = true) :
    ∀ x y, parseDateLabel a.date = some x → parseDateLabel b.date = some y → y ≤ x := by
  intro x y hx hy
  simp only [dateLE, hx, hy, decide_eq_true_eq] at hab
  exact hab

/-- C3: for every input of date-labelled items, one group per distinct
dateGroup value, items inside each group in input order (the group holds
exactly the input sublist with its label), groups ordered by calendar
date most recent first; in particular a "May 1, 2025" group precedes an
"April 15, 2025" group. -/
theorem C3_grouping (items : List PItem)
    (hp : ∀ i ∈ items, (parseDateLabel i.dateGroup).isSome = true) :
    ((groupGallery items).map (fun g => g.date)).Perm
        (dedupFirst (items.map (fun i => i.dateGroup)))
    ∧ (∀ g ∈ groupGallery items,
        g.items = items.filter (fun i => i.dateGroup = g.date))
    ∧ (groupGallery items).Pairwise (fun a b => ∀ x y,
        parseDateLabel a.date = some x → parseDateLabel b.date = some y → y ≤ x)
    ∧ (("May 1, 2025" ∈ items.map (fun i => i.dateGroup)) →
       ("April 15, 2025" ∈ items.map (fun i => i.dateGroup)) →
       ∃ i j : Fin (groupGallery items).length, i.1 < j.1 ∧
         ((groupGallery items).get i).date = "May 1, 2025" ∧
         ((groupGallery items).get j).date = "April 15, 2025") := by
  obtain ⟨hb1, hb2⟩ := buildGroups_spec items
  have hsp : (groupGallery items).Perm (buildGroups items) :=
    stableSort_perm dateLE (buildGroups items)
  have hperm : ((groupGallery items).map (fun g => g.date)).Perm
      (dedupFirst (items.map (fun i => i.dateGroup))) := by
    rw [← hb1]
    exact hsp.map _
  have hfilter : ∀ g ∈ groupGallery items,
      g.items = items.filter (fun i => i.dateGroup = g.date) :=
    fun g hg => (hb2 g (hsp.mem_iff.1 hg)).2
  have hpw0 : (groupGallery items).Pairwise (fun a b => dateLE a b = true) :=
    stableSort_pairwise dateLE dateLE_step dateLE_total (buildGroups items)
  have hpw : (groupGallery items).Pairwise (fun a b => ∀ x y,
      parseDateLabel a.date = some x → parseDateLabel b.date = some y → y ≤ x) :=
    hpw0.imp (fun hab => dateLE_imp hab)
  refine ⟨hperm, hfilter, hpw, ?_⟩
  intro hm ha
  have hmg : "May 1, 2025" ∈ (groupGallery items).map (fun g => g.date) :=
    hperm.mem_iff.2 ((mem_dedupFirst _ _).2 hm)
  have hag : "April 15, 2025" ∈ (groupGallery items).map (fun g => g.date) :=
    hperm.mem_iff.2 ((mem_dedupFirst _ _).2 ha)
  rcases List.mem_map.1 hmg with ⟨gm, hgm, hgmd⟩
  rcases List.mem_map.1 hag with ⟨ga, hga, hgad⟩
  rcases List.mem_iff_get.1 hgm with ⟨i, hi⟩
  rcases List.mem_iff_get.1 hga with ⟨j, hj⟩
  have hij : i.1 ≠ j.1 := by
    intro hcon
    apply (by decide : ¬ ("May 1, 2025" : String) = "April 15, 2025")
    have hfin : i = j := Fin.ext hcon
    rw [← hgmd, ← hgad, ← hi, ← hj, hfin]
  rcases Nat.lt_or_ge i.1 j.1 with hlt | hge
  · exact ⟨i, j, hlt, by rw [hi]; exact hgmd, by rw [hj]; exact hgad⟩
  · exfalso
    have hjlt : j < i := Fin.lt_def.2 (by omega)
    have hR := (List.pairwise_iff_get.1 hpw) j i hjlt
    have hcon := hR 20250415 20250501
      (by rw [hj, hgad]; decide) (by rw [hi, hgmd]; decide)
    omega

/-- An item whose dateGroup parses as May 1, 2025. -/
def c3itemMay : PItem :=
  ⟨"m1", "image", "/source/a.jpg", none, none, false, "May 1, 2025", []⟩

/-- An item whose dateGroup parses as April 15, 2025. -/
def c3itemApr : PItem :=
  ⟨"a1", "image", "/source/b.jpg", none, none, false, "April 15, 2025", []⟩

/-- April before May in the input, so the sort has to reorder. -/
def c3items : List PItem := [c3itemApr, c3itemMay]

theorem C3_witness :
    (∀ i ∈ c3items, (parseDateLabel i.dateGroup).isSome = true)
    ∧ ∃ i j : Fin (groupGallery c3items).length, i.1 < j.1 ∧
        ((groupGallery c3items).get i).date = "May 1, 2025" ∧
        ((groupGallery c3items).get j).date = "April 15, 2025" :=
  ⟨by decide, (C3_grouping c3items (by decide)).2.2.2 (by decide) (by decide)⟩

/-- An item with an unparseable dateGroup label. -/
def c4itemBad : PItem :=
  ⟨"g1", "image", "/source/g.jpg", none, none, false, "garbage", []⟩

/-- An item with a parseable dateGroup label. -/
def c4itemMay : PItem :=
  ⟨"m2", "image", "/source/m.jpg", none, none, false, "May 1, 2025", []⟩

/-- Unparseable label first in the input. -/
def c4items : List PItem := [c4itemBad, c4itemMay]

/-- C4 counterexample: on the input [item with unparseable label
"garbage", item with label "May 1, 2025"] the transformer does NOT
place the unparseable group after the parseable one: the comparator's
NaN is treated as 0 by the sort, the two groups compare equal, and the
stable sort keeps the unparseable group first. -/
theorem C4_counterexample :
    ¬ (∀ i j : Fin (groupGallery c4items).length,
        (parseDateLabel ((groupGallery c4items).get i).date).isNone = true →
        (parseDateLabel ((groupGallery c4items).get j).date).isSome = true →
        j.1 < i.1) := by decide

/-- C4 (amended): the transformer never crashes: for every input list —
unparseable labels included — it yields one group per distinct dateGroup
value carrying exactly the input items with that label in input order.
But a group with an unparseable label compares equal to every other
group (the comparator difference is NaN, treated as 0), so the stable
sort leaves it in first-occurrence position rather than below all
parseable groups: on [unparseable "garbage" item, "May 1, 2025" item]
the unparseable group stays first, above the parseable one. -/
theorem C4_unparseable :
    (∀ items : List PItem,
      ((groupGallery items).map (fun g => g.date)).Perm
          (dedupFirst (items.map (fun i => i.dateGroup)))
      ∧ ∀ g ∈ groupGallery items,
          g.items = items.filter (fun i => i.dateGroup = g.date))
    ∧ groupGallery c4items =
        [⟨"garbage", "garbage", [c4itemBad]⟩,
         ⟨"May 1, 2025", "May 1, 2025", [c4itemMay]⟩] := by
  constructor
  · intro items
    obtain ⟨hb1, hb2⟩ := buildGroups_spec items
    have hsp : (groupGallery items).Perm (buildGroups items) :=
      stableSort_perm dateLE (buildGroups items)
    constructor
    · rw [← hb1]
      exact hsp.map _
    · exact fun g hg => (hb2 g (hsp.mem_iff.1 hg)).2
  · decide

theorem C4_witness :
    (⟨"garbage", "garbage", [c4itemBad]⟩ : DateGroup) ∈ groupGallery c4items
    ∧ ([c4itemBad] : List PItem) = c4items.filter (fun i => i.dateGroup = "garbage") := by
  refine ⟨by decide, ?_⟩
  have h := (C4_unparseable.1 c4items).2 ⟨"garbage", "garbage", [c4itemBad]⟩ (by decide)
  simpa using h

theorem getById_map_update (s : List Row) (idv : String) (v : Int) (r : Row)
    (hr : getById s idv = some r) :
    getById (s.map (fun q => if q.id = idv then { q with isFavorite := v } else q)) idv
      = some { r with isFavorite := v } := by
  unfold getById at hr ⊢
  rw [List.find?_map]
  have hfeq : ((fun q : Row => decide (q.id = idv)) ∘
      (fun q : Row => if q.id = idv then { q with isFavorite := v } else q))
      = fun q : Row => decide (q.id = idv) := by
    funext q
    by_cases h : q.id = idv <;> simp [h]
  rw [hfeq, hr]
  have hid : r.id = idv := by simpa using List.find?_some hr
  simp [hid]

/-- C5: for every id present in the store the favorite operation
succeeds and inverts that record's flag (false becomes true; a second
application yields false again), persisting the new value; for an
absent id it fails with NotFound (no updated store is produced). -/
theorem C5_favorite_toggle (s : List Row) (idv : String) :
    (getById s idv = none → setFavorite s idv = none)
    ∧ ∀ r, getById s idv = some r →
        ∃ s2 v, setFavorite s idv = some (s2, v)
          ∧ ((v != 0) = ! (r.isFavorite != 0))
          ∧ getById s2 idv = some { r with isFavorite := v }
          ∧ ∀ s3 v2, setFavorite s2 idv = some (s3, v2) → (v2 != 0) = ! (v != 0) := by
  constructor
  · intro h
    simp [setFavorite, h]
  · intro r hr
    refine ⟨s.map (fun q => if q.id = idv then
        { q with isFavorite := if r.isFavorite = 0 then 1 else 0 } else q),
      if r.isFavorite = 0 then 1 else 0, ?_, ?_, ?_, ?_⟩
    · simp only [setFavorite, hr]
    · by_cases h0 : r.isFavorite = 0 <;> simp [h0]
    · exact getById_map_update s idv _ r hr
    · intro s3 v2 h2
      have hg2 := getById_map_update s idv (if r.isFavorite = 0 then 1 else 0) r hr
      simp only [setFavorite, hg2] at h2
      injection h2 with h2'
      have hv2 : v2 = if ({ r with isFavorite :=
          if r.isFavorite = 0 then 1 else 0 } : Row).isFavorite = 0 then (1 : Int)
          else 0 := by
        have := congrArg Prod.snd h2'
        simpa using this.symm
      rw [hv2]
      by_cases h0 : r.isFavorite = 0 <;> simp [h0]

/-- One row with favorite flag 0, to exercise the toggle. -/
def c5row : Row := ⟨"x", "image", "/uploads/a.jpg", none, none, 0, "May 1, 2025", some "[]"⟩

/-- A one-row store. -/
def c5store : List Row := [c5row]

theorem C5_witness :
    getById c5store "x" = some c5row
    ∧ ∃ s2 v, setFavorite c5store "x" = some (s2, v)
        ∧ ((v != 0) = ! (c5row.isFavorite != 0))
        ∧ ∀ s3 v2, setFavorite s2 "x" = some (s3, v2) → (v2 != 0) = ! (v != 0) := by
  refine ⟨by decide, ?_⟩
  obtain ⟨s2, v, h1, h2, _, h4⟩ := (C5_favorite_toggle c5store "x").2 c5row (by decide)
  exact ⟨s2, v, h1, h2, h4⟩

/-- C6: an upload invocation with no file payload signals a client
error (400) and never touches the store: no updated store or created
record is produced. -/
theorem C6_upload_no_file (s : List Row) (alt categories : Option String)
    (dateGroup newId : String) :
    uploadItem s none alt categories dateGroup newId = none := rfl

/-- C7: every successful upload yields a record whose type is "image"
exactly when the MIME type starts with "image/" (else "video"), with a
null poster, a false favorite flag, alt defaulting to the original
filename when absent, and categories the parsed JSON of the categories
field with an empty-list fallback when the parse fails. -/
theorem C7_upload_fields (s : List Row) (f : UploadFile) (altF categoriesF : Option String)
    (dateGroupF newId : String) (s2 : List Row) (item : PItem)
    (h : uploadItem s (some f) altF categoriesF dateGroupF newId = some (s2, item)) :
    ((item.type = "image") ↔ startsWithStr f.mimetype "image/" = true)
    ∧ (item.type = "image" ∨ item.type = "video")
    ∧ item.poster = none
    ∧ item.isFavorite = false
    ∧ (altF = none → item.alt = some f.originalname)
    ∧ (categoriesF = none → item.categories = [])
    ∧ (∀ cs, categoriesF = some cs → ¬ cs = "" →
        (∀ l, parseCats (some cs) = some l → item.categories = l)
        ∧ (parseCats (some cs) = none → item.categories = [])) := by
  simp only [uploadItem] at h
  injection h with h'
  have hitem := congrArg Prod.snd h'
  simp only at hitem
  subst hitem
  refine ⟨?_, ?_, rfl, rfl, ?_, ?_, ?_⟩
  · by_cases hm : startsWithStr f.mimetype "image/" <;> simp [hm]
  · by_cases hm : startsWithStr f.mimetype "image/" <;> simp [hm]
  · intro ha
    subst ha
    rfl
  · intro hc
    subst hc
    rfl
  · intro cs hcs hne
    subst hcs
    constructor
    · intro l hl
      simp [if_neg hne, hl]
    · intro hl
      simp [if_neg hne, hl]

/-- A concrete uploaded file. -/
def c7file : UploadFile := ⟨"image/jpeg", "photo.jpg", "1700000000000-photo.jpg"⟩

/-- The item the upload of `c7file` creates. -/
def c7item : PItem := ⟨"uploaded-1", "image", "/uploads/1700000000000-photo.jpg",
  some "photo.jpg", none, false, "June 1, 2025", []⟩

/-- The store after uploading `c7file` into an empty store. -/
def c7store2 : List Row := [⟨"uploaded-1", "image", "/uploads/1700000000000-photo.jpg",
  some "photo.jpg", none, 0, "June 1, 2025", some (stringifyCats [])⟩]

theorem C7_witness :
    uploadItem [] (some c7file) none none "June 1, 2025" "uploaded-1"
      = some (c7store2, c7item)
    ∧ c7item.type = "image" ∧ c7item.isFavorite = false ∧ c7item.categories = [] := by
  have h : uploadItem [] (some c7file) none none "June 1, 2025" "uploaded-1"
      = some (c7store2, c7item) := by decide
  obtain ⟨h1, _, _, h4, _, h6, _⟩ :=
    C7_upload_fields [] c7file none none "June 1, 2025" "uploaded-1" c7store2 c7item h
  exact ⟨h, h1.mpr (by decide), h4, h6 rfl⟩

/-- C8: initialization is idempotent with respect to seeding: on any
non-empty store it performs no seeding, so a second run after seeding
an empty store leaves the record count unchanged. -/
theorem C8_initialize_idempotent :
    (∀ s : List Row, s ≠ [] → initializeDatabase s = s)
    ∧ (initializeDatabase (initializeDatabase [])).length
        = (initializeDatabase []).length := by
  have h1 : ∀ s : List Row, s ≠ [] → initializeDatabase s = s := by
    intro s hs
    cases s with
    | nil => exact absurd rfl hs
    | cons a t => simp [initializeDatabase]
  refine ⟨h1, ?_⟩
  rw [h1 (initializeDatabase []) (by decide)]

/-- A row for the idempotence witness. -/
def c8row : Row := ⟨"r1", "image", "/uploads/x.jpg", none, none, 0, "May 1, 2025", some "[]"⟩

theorem C8_witness : ([c8row] : List Row) ≠ [] ∧ initializeDatabase [c8row] = [c8row] :=
  ⟨by decide, C8_initialize_idempotent.1 [c8row] (by decide)⟩

theorem countP_eq_one_of_nodup_ids (idv : String) :
    ∀ (l : List Row), (l.map (fun q => q.id)).Nodup → ∀ r ∈ l, r.id = idv →
      l.countP (fun q => q.id = idv) = 1 := by
  intro l
  induction l with
  | nil => intro _ r hr; exact absurd hr (List.not_mem_nil r)
  | cons a t ih =>
    intro hnd r hr hrid
    rw [List.map_cons, List.nodup_cons] at hnd
    rcases List.mem_cons.1 hr with rfl | hrt
    · rw [List.countP_cons]
      have ht0 : t.countP (fun q => q.id = idv) = 0 := by
        rw [List.countP_eq_zero]
        intro q hq
        simp only [decide_eq_true_eq]
        intro hcon
        exact hnd.1 (hrid ▸ hcon ▸ List.mem_map_of_mem (fun z => z.id) hq)
      simp [ht0, hrid]
    · rw [List.countP_cons]
      have hane : ¬ (a.id = idv) := by
        intro hcon
        exact hnd.1 (hcon ▸ hrid ▸ List.mem_map_of_mem (fun z => z.id) hrt)
      simp [hane, ih hnd.2 r hrt hrid]

theorem length_split_by_id (idv : String) :
    ∀ (l : List Row), l.length = l.countP (fun q => q.id = idv)
      + (l.filter (fun r => ¬ (r.id = idv))).length := by
  intro l
  induction l with
  | nil => rfl
  | cons a t ih =>
    by_cases h : a.id = idv <;>
      simp [List.countP_cons, List.filter_cons, h, ih] <;> omega

/-- C9: a successful delete returns the requested id and removes exactly
the rows carrying it (exactly one when ids are unique): afterwards
getById reports NotFound and a second delete also reports NotFound;
deleting an absent id fails with NotFound. -/
theorem C9_delete (s : List Row) (idv : String) :
    (getById s idv = none → deleteItem s idv = none)
    ∧ ∀ s2 rid, deleteItem s idv = some (s2, rid) →
        rid = idv
        ∧ getById s2 idv = none
        ∧ deleteItem s2 idv = none
        ∧ s2 = s.filter (fun r => ¬ (r.id = idv))
        ∧ (∀ q ∈ s2, q ∈ s)
        ∧ (∀ q ∈ s, ¬ (q.id = idv) → q ∈ s2)
        ∧ ((s.map (fun r => r.id)).Nodup → s.length = s2.length + 1) := by
  constructor
  · intro h
    simp [deleteItem, h]
  · intro s2 rid h
    rcases hg : getById s idv with _ | r
    · simp [deleteItem, hg] at h
    · have hrid : r.id = idv := by simpa using List.find?_some hg
      have hrmem : r ∈ s := List.mem_of_find?_eq_some hg
      have hcp : ¬ (s.countP (fun q => q.id = idv) = 0) := by
        intro hcon
        rw [List.countP_eq_zero] at hcon
        have := hcon r hrmem
        simp only [decide_eq_true_eq] at this
        exact this hrid
      rw [show deleteItem s idv = some (s.filter (fun q => ¬ (q.id = idv)), idv) by
        simp [deleteItem, hg, hcp]] at h
      injection h with h'
      have hs2 : s2 = s.filter (fun q => ¬ (q.id = idv)) :=
        (congrArg Prod.fst h').symm
      have hridv : rid = idv := (congrArg Prod.snd h').symm
      subst hs2
      have hnone : getById (s.filter (fun q => ¬ (q.id = idv))) idv = none := by
        unfold getById
        rw [List.find?_eq_none]
        intro x hx
        have hxf := (List.mem_filter.1 hx).2
        simp only [decide_eq_true_eq] at hxf ⊢
        exact hxf
      refine ⟨hridv, hnone, by simp only [deleteItem, hnone], rfl,
        fun q hq => (List.mem_filter.1 hq).1,
        fun q hq hqid => List.mem_filter.2 ⟨hq, by simpa using hqid⟩, ?_⟩
      intro hnd
      have hc1 := countP_eq_one_of_nodup_ids idv s hnd r hrmem hrid
      have hsplit := length_split_by_id idv s
      omega

/-- Two rows with distinct ids for the delete witness. -/
def c9rowA : Row := ⟨"a", "image", "/uploads/a.jpg", none, none, 0, "May 1, 2025", some "[]"⟩

/-- The second row, which the delete must keep. -/
def c9rowB : Row := ⟨"b", "video", "/uploads/b.mp4", none, none, 1, "May 1, 2025", some "[]"⟩

/-- A two-row store. -/
def c9store : List Row := [c9rowA, c9rowB]

theorem C9_witness :
    deleteItem c9store "a" = some ([c9rowB], "a")
    ∧ getById [c9rowB] "a" = none
    ∧ deleteItem [c9rowB] "a" = none := by
  have h : deleteItem c9store "a" = some ([c9rowB], "a") := by decide
  obtain ⟨_, h2, h3, _⟩ := (C9_delete c9store "a").2 [c9rowB] "a" h
  exact ⟨h, h2, h3⟩

/-- C10: the favorite operation normalizes the flag: whatever integer
the record currently holds, the written value is 1 exactly when the
current value is 0 and 0 for any nonzero value, so every row with the
operated id ends up with a flag in the set 0,1. -/
theorem C10_favorite_normalizes (s : List Row) (idv : String) (r : Row)
    (hr : getById s idv = some r) :
    ∃ s2 v, setFavorite s idv = some (s2, v)
      ∧ (r.isFavorite = 0 → v = 1)
      ∧ (¬ r.isFavorite = 0 → v = 0)
      ∧ (v = 0 ∨ v = 1)
      ∧ ∀ q ∈ s2, q.id = idv → q.isFavorite = 0 ∨ q.isFavorite = 1 := by
  refine ⟨s.map (fun q => if q.id = idv then
      { q with isFavorite := if r.isFavorite = 0 then 1 else 0 } else q),
    if r.isFavorite = 0 then 1 else 0, by simp only [setFavorite, hr], ?_, ?_, ?_, ?_⟩
  · intro h0
    rw [if_pos h0]
  · intro h0
    rw [if_neg h0]
  · by_cases h0 : r.isFavorite = 0 <;> simp [h0]
  · intro q hq hqid
    rcases List.mem_map.1 hq with ⟨q0, hq0, hup⟩
    by_cases hqi : q0.id = idv
    · rw [if_pos hqi] at hup
      subst hup
      by_cases h0 : r.isFavorite = 0 <;> simp [h0]
    · rw [if_neg hqi] at hup
      subst hup
      exact absurd hqid hqi

/-- A row whose favorite flag holds the out-of-range integer 5. -/
def c10row : Row := ⟨"z", "image", "/uploads/z.jpg", none, none, 5, "May 1, 2025", some "[]"⟩

/-- A one-row store with an out-of-range flag. -/
def c10store : List Row := [c10row]

theorem C10_witness :
    getById c10store "z" = some c10row
    ∧ ∃ s2 v, setFavorite c10store "z" = some (s2, v) ∧ v = 0 := by
  refine ⟨by decide, ?_⟩
  obtain ⟨s2, v, h1, _, h3, _, _⟩ := C10_favorite_normalizes c10store "z" c10row (by decide)
  exact ⟨s2, v, h1, h3 (by decide)⟩

end Gallery
